import Mathlib

/-!
Verification of the inverse-ballistics data generator (`data.py`).

Shallow embedding conventions:
* numpy float arrays are modelled as lists of exact rationals (`List ℚ`);
  an N-by-1500 array is a `List (List ℚ)` of N rows.
* The transcendental float routines `np.exp`, `np.cos`, `np.sin` are modelled
  as an abstract bundle of functions `FloatOps`; every theorem quantifies over
  them, and concrete instances are supplied where single inputs are evaluated.
* `np.pi` is likewise an abstract positive rational constant where it occurs.
* Randomness (`np.random.*`) is modelled by explicit streams of draws.
* File system effects (`np.load`, `np.save`, `os.makedirs`) are modelled by an
  environment record; a raised Python exception that the code does not catch
  becomes an `Except.error`, a caught one is a `none`-valued load.
* `print` / `warnings.warn` diagnostics are collected in a log list.
-/

/-- One row of an N-by-4 parameter array: `(x0, y0, angle, v0)`. -/
structure ParamRow where
  x0 : ℚ
  y0 : ℚ
  angle : ℚ
  v0 : ℚ
deriving DecidableEq

/-- The physical constants of `InverseBallisticsModel.__init__`. -/
structure BallisticsModel where
  g : ℚ
  k : ℚ
  m : ℚ
deriving DecidableEq

/-- Default constants `g=9.81, k=0.25, m=0.2`. -/
def defaultModel : BallisticsModel := ⟨981/100, 1/4, 1/5⟩

/-- Abstract model of the float transcendentals used by the code. -/
structure FloatOps where
  fexp : ℚ → ℚ
  fcos : ℚ → ℚ
  fsin : ℚ → ℚ

/-- Number of time samples per trajectory (hard-coded 1500 in the code). -/
def nSamples : ℕ := 1500

/-- `np.linspace(0, 6, 1500)`: the `j`-th sample time is `6*j/1499`. -/
def tval (j : ℕ) : ℚ := 6 * (j : ℚ) / 1499

/-- The list of the 1500 sample times. -/
def tlist : List ℚ := (List.range nSamples).map tval

/-- Row `i`, entry `j` of the x-array built by `trajectories_from_parameters`:
`x0 - (vx*m/k) * (exp(-k*t/m) - 1)` with `vx = v0*cos(angle)`. -/
def trajX (M : BallisticsModel) (F : FloatOps) (p : ParamRow) (t : ℚ) : ℚ :=
  p.x0 - (p.v0 * F.fcos p.angle * M.m / M.k) * (F.fexp (-M.k * t / M.m) - 1)

/-- Row `i`, entry `j` of the y-array built by `trajectories_from_parameters`:
`y0 - (m/k^2) * ((g*m + vy*k) * (exp(-k*t/m) - 1) + g*t*k)` with
`vy = v0*sin(angle)`. -/
def trajY (M : BallisticsModel) (F : FloatOps) (p : ParamRow) (t : ℚ) : ℚ :=
  p.y0 - (M.m / (M.k * M.k)) *
    ((M.g * M.m + p.v0 * F.fsin p.angle * M.k) * (F.fexp (-M.k * t / M.m) - 1)
      + M.g * t * M.k)

/-- `InverseBallisticsModel.trajectories_from_parameters`: the two N-by-1500
arrays `(xt, yt)`.  The numpy broadcasting (`np.split`, `np.repeat`, pointwise
array arithmetic) evaluates exactly these scalar formulas at the grid
`(row i, time t_j)`. -/
def trajectories_from_parameters (M : BallisticsModel) (F : FloatOps)
    (x : List ParamRow) : List (List ℚ) × List (List ℚ) :=
  (x.map (fun p => tlist.map (trajX M F p)),
   x.map (fun p => tlist.map (trajY M F p)))

/-- One update step of `np.argmax`'s running best index: indices are visited in
ascending order and the best index is replaced only on a strictly larger value,
so the first occurrence of the maximum wins. -/
def argmaxStep (l : List ℚ) (b j : ℕ) : ℕ :=
  if l.getD b 0 < l.getD j 0 then j else b

/-- `np.argmax` over one row (index of the first occurrence of the maximum). -/
def argmaxIdx (l : List ℚ) : ℕ :=
  (List.range l.length).foldl (argmaxStep l) 0

/-- `np.signbit` on an exact rational: true exactly on negative values. -/
def signbit (q : ℚ) : Bool := decide (q < 0)

/-- `ys_after_peak = np.where(xs < xs[range(N), ys_peak][:,None], 0.1, ys)`
for one row: samples at x-positions strictly left of the x-position of the
peak are overridden by the sentinel `0.1`. -/
def overridden (xr yr : List ℚ) : List ℚ :=
  List.zipWith (fun xj yj => if xj < xr.getD (argmaxIdx yr) 0 then (1:ℚ)/10 else yj) xr yr

/-- The column indices where `np.diff(np.signbit(row))` is true: positions `j`
with a sign-bit change between samples `j` and `j+1` (either direction). -/
def flipIdxs (l : List ℚ) : List ℕ :=
  (List.range (l.length - 1)).filter
    (fun j => signbit (l.getD j 0) != signbit (l.getD (j+1) 0))

/-- The impact values contributed by a single row: the x-values at the
positions where the sign bit of the overridden y-row flips. -/
def impactRow (xr yr : List ℚ) : List ℚ :=
  (flipIdxs (overridden xr yr)).map (fun j => xr.getD j 0)

/-- `InverseBallisticsModel.impact_from_trajectories`: fancy indexing
`xs[np.diff(np.signbit(ys_after_peak)).nonzero()]` returns the selected
x-values in C (row-major) order, i.e. the per-row impact lists concatenated
in row order. -/
def impact_from_trajectories (xs ys : List (List ℚ)) : List ℚ :=
  ((List.zip xs ys).map (fun p => impactRow p.1 p.2)).flatten

/-- `InverseBallisticsModel.forward_process` (the trailing `[:,None]` reshape
to an N-by-1 column is immaterial for a list model). -/
def forward_process (M : BallisticsModel) (F : FloatOps) (x : List ParamRow) :
    List ℚ :=
  impact_from_trajectories (trajectories_from_parameters M F x).1
    (trajectories_from_parameters M F x).2

/-- The chunked forward-process loop of `InverseBallisticsDataset.__init__`:
for `n > 100000` the rows are processed in slices
`x[100000*i : min(n, 100000*(i+1))]` and the chunk results concatenated. -/
def forwardChunked (M : BallisticsModel) (F : FloatOps) (n : ℕ)
    (x : List ParamRow) : List ℚ :=
  if 100000 < n then
    ((List.range ((n - 1) / 100000 + 1)).map (fun i =>
        forward_process M F
          ((x.drop (100000 * i)).take (min n (100000 * (i + 1)) - 100000 * i)))).flatten
  else
    forward_process M F x

/-- The random draws consumed by `sample_prior`: two standard-normal streams,
a uniform `[0,1)` stream and a Poisson(15) stream (integer-valued). -/
structure Rands where
  rx : ℕ → ℚ
  ry : ℕ → ℚ
  u : ℕ → ℚ
  pv : ℕ → ℕ

/-- `InverseBallisticsModel.sample_prior`:
`x0 = randn*0.5 + 0`, `y0 = max(randn*0.5 + 1.5, 0)`,
`angle = rand * pi/2 * 0.8 + pi/2 * 0.1`, `v0 = poisson(15)` cast to float. -/
def sample_prior (qpi : ℚ) (R : Rands) (N : ℕ) : List ParamRow :=
  (List.range N).map (fun i =>
    { x0 := R.rx i * (1/2) + 0
      y0 := max (R.ry i * (1/2) + 3/2) 0
      angle := R.u i * (qpi/2) * (8/10) + (qpi/2) * (1/10)
      v0 := (R.pv i : ℚ) })

/-- Abstract model of the sklearn subroutines used by `find_MAP`.  Each call
either returns a value or raises (modelled by `Except.error ()`):
`meanShiftFit` stands for `MeanShift().fit(x).cluster_centers_` and
`kdeScores x cs` for `KernelDensity(...).fit(x).score_samples(cs)`.  A kernel
density log-score can be minus infinity, hence `WithBot ℚ`. -/
structure MAPEnv where
  meanShiftFit : List ParamRow → Except Unit (List ParamRow)
  kdeScores : List ParamRow → List ParamRow → Except Unit (List (WithBot ℚ))

/-- The `best_center` selection loop of `find_MAP`: start from
`(None, -inf)` and replace the best pair whenever a strictly larger density
is seen. -/
def bestCenterLoop (cs : List ParamRow) (ds : List (WithBot ℚ)) :
    Option ParamRow × WithBot ℚ :=
  (List.zip cs ds).foldl
    (fun best p => if best.2 < p.2 then (some p.1, p.2) else best) (none, ⊥)

/-- Squared Euclidean distance between two 4-dimensional parameter rows,
`np.sum((x - c)**2, axis=1)` for one row. -/
def sqDist (a c : ParamRow) : ℚ :=
  (a.x0 - c.x0)^2 + (a.y0 - c.y0)^2 + (a.angle - c.angle)^2 + (a.v0 - c.v0)^2

/-- One update step of `np.argmin`'s running best index (first minimum wins:
indices are visited in ascending order, replacement on strictly smaller). -/
def argminStep (l : List ℚ) (b j : ℕ) : ℕ :=
  if l.getD j 0 < l.getD b 0 then j else b

/-- `np.argmin` over a list (index of the first occurrence of the minimum). -/
def argminIdx (l : List ℚ) : ℕ :=
  (List.range l.length).foldl (argminStep l) 0

/-- The body of the `try:` block of `find_MAP`.  When the selection loop ends
with `best_center = (None, -inf)` (no centers, or only `-inf` densities), the
subsequent `x - best_center[0]` raises inside the `try:` block, modelled by
`Except.error ()`. -/
def mapTryBody (env : MAPEnv) (x : List ParamRow) : Except Unit ℕ :=
  (env.meanShiftFit x).bind (fun centers =>
    (env.kdeScores x centers).bind (fun dens =>
      match (bestCenterLoop centers dens).1 with
      | none => .error ()
      | some c => .ok (argminIdx (x.map (fun r => sqDist r c)))))

/-- `InverseBallisticsModel.find_MAP`: the bare `except:` clause catches every
exception, prints a diagnostic and returns index 0.  The second component
collects the printed diagnostics. -/
def find_MAP (env : MAPEnv) (x : List ParamRow) : ℕ × List String :=
  match mapTryBody env x with
  | .ok i => (i, [])
  | .error _ => (0, ["Mean shift failed"])

/-- File-system environment for one `InverseBallisticsDataset` construction.
`loadX`/`loadY` are the results of `np.load` on the two artifacts (`none`
models any raised load exception, which the code catches); `saveXOk` models
whether `os.makedirs` plus `np.save` of the parameter artifact succeed, and
`saveYOk` whether `np.save` of the observation artifact succeeds (a failure
there is not caught by the code). -/
structure IOEnv where
  loadX : Option (List ParamRow)
  loadY : Option (List ℚ)
  saveXOk : Bool
  saveYOk : Bool

/-- The state stored by a constructed `InverseBallisticsDataset`:
`self.n`, `self.x`, `self.y`, plus the emitted diagnostics. -/
structure DatasetState where
  n : ℕ
  x : List ParamRow
  y : List ℚ
  logs : List String
deriving DecidableEq

/-- The effective result of the `np.load` attempt: with `root_dir=None` the
path string starts with `None/` and the load raises, which the code treats
exactly like a missing artifact. -/
def effLoad {α : Type} (hasRoot : Bool) (o : Option α) : Option α :=
  if hasRoot then o else none

/-- Diagnostic printed on a parameter-artifact cache miss. -/
def xMissMsg : String := "Not enough data found, generating new samples"

/-- Diagnostic printed on an observation-artifact cache miss. -/
def yMissMsg : String := "Not enough labels found, running forward process"

/-- Warning issued when no data directory is specified. -/
def noRootMsg : String := "No data directory specified, data will not be stored"

/-- The parameter branch of `InverseBallisticsDataset.__init__`:
`x = np.load(...)[:n]` on success (note: a file with fewer than `n` rows
loads fine and is merely truncated), otherwise `x = model.sample_prior(n)`
followed by `os.makedirs` and `np.save` when a directory was given; a failure
of those propagates. -/
def datasetX (qpi : ℚ) (R : Rands) (env : IOEnv) (hasRoot : Bool) (n : ℕ) :
    Except String (List ParamRow × List String) :=
  match effLoad hasRoot env.loadX with
  | some a => .ok (a.take n, [])
  | none =>
      if hasRoot && !env.saveXOk then .error "x artifact save failed"
      else .ok (sample_prior qpi R n, [xMissMsg])

/-- The observation branch of `InverseBallisticsDataset.__init__`:
`y = np.load(...)[:n]` on success, otherwise the chunked forward process over
the materialized `x`, followed by `np.save` when a directory was given. -/
def datasetY (M : BallisticsModel) (F : FloatOps) (env : IOEnv)
    (hasRoot : Bool) (n : ℕ) (x : List ParamRow) :
    Except String (List ℚ × List String) :=
  match effLoad hasRoot env.loadY with
  | some b => .ok (b.take n, [])
  | none =>
      if hasRoot && !env.saveYOk then .error "y artifact save failed"
      else .ok (forwardChunked M F n x, [yMissMsg])

/-- `InverseBallisticsDataset.__init__` (artifact naming by
`(model.name, role, suffix)` is abstracted into the environment): the
parameter branch runs first and an uncaught failure there aborts before the
observation branch runs; the diagnostics of both branches and the
missing-directory warning are collected. -/
def datasetInit (M : BallisticsModel) (F : FloatOps) (qpi : ℚ) (R : Rands)
    (env : IOEnv) (hasRoot : Bool) (n : ℕ) : Except String DatasetState :=
  (datasetX qpi R env hasRoot n).bind (fun xr =>
    (datasetY M F env hasRoot n xr.1).bind (fun yr =>
      .ok ⟨n, xr.1, yr.1, (if hasRoot then [] else [noRootMsg]) ++ xr.2 ++ yr.2⟩))

/-- `InverseBallisticsDataset.__len__` returns `self.n`. -/
def datasetLen (d : DatasetState) : ℕ := d.n

/-- `InverseBallisticsDataset.__getitem__` returns `(self.x[i], self.y[i])`;
an out-of-range numpy row index raises, modelled by `none`. -/
def datasetGetitem (d : DatasetState) (i : ℕ) : Option (ParamRow × ℚ) :=
  match d.x.get? i, d.y.get? i with
  | some a, some b => some (a, b)
  | _, _ => none

/-- Default parameter row used to fill `getD` lookups in statements. -/
def pdef : ParamRow := ⟨0, 0, 0, 0⟩

/-- Spec-side restatement of the override step, written from the claim
wording: the y-sample at each of the 1500 positions is replaced by the
sentinel `0.1` exactly when its x-position is strictly less than the
x-position at the peak index. -/
def specOverride (xr yr : List ℚ) : List ℚ :=
  (List.range nSamples).map (fun j =>
    if xr.getD j 0 < xr.getD (argmaxIdx yr) 0 then (1:ℚ)/10 else yr.getD j 0)

/-- Spec-side restatement of one row's impact values: the x-values at the
positions (among the 1499 consecutive pairs) where the strict-negativity bit
of the overridden y-row differs between a sample and its successor. -/
def specImpactRow (xr yr : List ℚ) : List ℚ :=
  ((List.range (nSamples - 1)).filter (fun j =>
      decide ((specOverride xr yr).getD j 0 < 0)
        != decide ((specOverride xr yr).getD (j+1) 0 < 0))).map
    (fun j => xr.getD j 0)

/-- The impact values contributed by the trajectory of a single parameter
row. -/
def rowImpacts (M : BallisticsModel) (F : FloatOps) (p : ParamRow) : List ℚ :=
  impactRow (tlist.map (trajX M F p)) (tlist.map (trajY M F p))

/-- A concrete float-ops instance for witnesses: `exp` is the constant 1
(so the exponential term of the closed form vanishes), `cos` is the constant
0 and `sin` the constant 1. -/
def Fwit : FloatOps := ⟨fun _ => 1, fun _ => 0, fun _ => 1⟩

/-- A concrete float-ops instance for the C6 counterexample.  It is only
evaluated at the angle 0 of `pcex`, where the float cosine and sine are
exactly 1 and 0, and at the non-positive exponents `-k*t/m`, where the
exponential slot is the exp-like rational map `a ↦ 1/(1-a)`: value 1 at 0,
positive, strictly increasing, at most 1 on non-positive arguments — the
only properties of the true `exp` the construction relies on. -/
def Fcex : FloatOps := ⟨fun a => 1/(1 - a), fun _ => 1, fun _ => 0⟩

/-- Counterexample parameter row: launched horizontally (`angle = 0`, so the
x-positions strictly increase from the very first sample, which is also the
y-peak — the pre-peak override never fires), with the starting height tuned
so that the strictly descending y-trajectory reaches exactly 0 at the last
sample: `y(t) = 17658/425 - (981/100)*t^2/(1 + (5/4)*t)`, positive for
`0 ≤ t < 6` and zero at `t = 6`.  The float program reaches the same
situation: each y-sample is the single subtraction `y0 - T_j` with `T_j`
independent of `y0`, so the float input `y0 = T_1499` makes the last sample
exactly `+0.0` (sign bit clear) while sample 1498 stays near `+0.03`. -/
def pcex : ParamRow := ⟨0, 17658/425, 0, 1⟩

/-- A concrete random-draw environment for witnesses (all draws zero). -/
def Rwit : Rands := ⟨fun _ => 0, fun _ => 0, fun _ => 0, fun _ => 0⟩

/-- Counterexample x-row for the impact extractor: all 1500 x-samples equal
0, so no sample is overridden (`0 < 0` fails). -/
def cexXs1 : List ℚ := List.replicate nSamples 0

/-- Counterexample y-row for the impact extractor: `-1` followed by 1499
samples equal to 1 — a negative-to-positive sign change and no
positive-to-non-positive one. -/
def cexYs1 : List ℚ := (-1 : ℚ) :: List.replicate (nSamples - 1) 1

/-! ### General list lemmas -/

theorem getD_map_range (f : ℕ → ℚ) (n j : ℕ) (h : j < n) :
    ((List.range n).map f).getD j 0 = f j := by
  rw [List.getD_eq_getElem?_getD, List.getElem?_map, List.getElem?_range h]
  rfl

theorem length_tlist : tlist.length = nSamples := by
  simp [tlist]

theorem getD_tlist_map (f : ℚ → ℚ) (j : ℕ) (h : j < nSamples) :
    ((tlist.map f)).getD j 0 = f (tval j) := by
  rw [tlist, List.map_map]
  exact getD_map_range _ _ _ h

theorem length_tlist_map (f : ℚ → ℚ) : (tlist.map f).length = nSamples := by
  simp [tlist]

theorem getD_zero_replicate (n j : ℕ) : (List.replicate n (0:ℚ)).getD j 0 = 0 := by
  rw [List.getD_eq_getElem?_getD, List.getElem?_replicate]
  split <;> rfl

theorem zipWith_replicate_left (f : ℚ → ℚ → ℚ) (c : ℚ) (hf : ∀ y, f c y = y) :
    ∀ (n : ℕ) (b : List ℚ), b.length = n → List.zipWith f (List.replicate n c) b = b := by
  intro n
  induction n with
  | zero =>
      intro b hb
      rw [List.eq_nil_of_length_eq_zero hb]
      rfl
  | succ k ih =>
      intro b hb
      cases b with
      | nil => simp at hb
      | cons y t =>
          have ht : t.length = k := by simpa using hb
          simp [List.replicate_succ, hf, ih t ht]

theorem range_filter_deq (a : ℕ) :
    ∀ (n : ℕ), a < n → (List.range n).filter (fun j => decide (j = a)) = [a] := by
  intro n
  induction n with
  | zero => intro h; omega
  | succ k ih =>
      intro h
      rw [List.range_succ, List.filter_append]
      rcases Nat.lt_succ_iff_lt_or_eq.mp h with h1 | h1
      · have hk : (decide (k = a)) = false := by
          simp
          omega
        rw [ih h1]
        simp [List.filter, hk]
      · subst h1
        have h0 : (List.range a).filter (fun j => decide (j = a)) = [] := by
          rw [List.filter_eq_nil_iff]
          intro j hj
          simp only [List.mem_range] at hj
          simp
          omega
        simp [h0, List.filter]

/-! ### Characterization of the argmax fold -/

theorem argmax_fold_spec (l : List ℚ) :
    ∀ n, n ≤ l.length →
      ((List.range n).foldl (argmaxStep l) 0 = 0 ∨
         (List.range n).foldl (argmaxStep l) 0 < n) ∧
      (∀ j, j < n →
         l.getD j 0 ≤ l.getD ((List.range n).foldl (argmaxStep l) 0) 0) ∧
      (∀ j, j < (List.range n).foldl (argmaxStep l) 0 →
         l.getD j 0 < l.getD ((List.range n).foldl (argmaxStep l) 0) 0) := by
  intro n
  induction n with
  | zero => intro _; refine ⟨Or.inl rfl, ?_, ?_⟩ <;> intro j hj <;> simp at hj
  | succ k ih =>
      intro h
      have hk := ih (Nat.le_of_succ_le h)
      rw [List.range_succ, List.foldl_append] at *
      simp only [List.foldl_cons, List.foldl_nil]
      by_cases hc :
          l.getD ((List.range k).foldl (argmaxStep l) 0) 0 < l.getD k 0
      · simp only [argmaxStep, if_pos hc]
        refine ⟨Or.inr (Nat.lt_succ_self k), ?_, ?_⟩
        · intro j hj
          rcases Nat.lt_succ_iff_lt_or_eq.mp hj with hj1 | hj1
          · exact le_trans (hk.2.1 j hj1) (le_of_lt hc)
          · subst hj1; exact le_refl _
        · intro j hj
          exact lt_of_le_of_lt (hk.2.1 j hj) hc
      · simp only [argmaxStep, if_neg hc]
        push_neg at hc
        refine ⟨?_, ?_, hk.2.2⟩
        · rcases hk.1 with h1 | h1
          · exact Or.inl h1
          · exact Or.inr (Nat.lt_succ_of_lt h1)
        · intro j hj
          rcases Nat.lt_succ_iff_lt_or_eq.mp hj with hj1 | hj1
          · exact hk.2.1 j hj1
          · subst hj1; exact hc

theorem argmaxIdx_lt_length (l : List ℚ) (h : l ≠ []) : argmaxIdx l < l.length := by
  rcases (argmax_fold_spec l l.length le_rfl).1 with h1 | h1
  · rw [argmaxIdx, h1]
    exact List.length_pos.mpr h
  · exact h1

theorem argmaxIdx_is_max (l : List ℚ) (j : ℕ) (hj : j < l.length) :
    l.getD j 0 ≤ l.getD (argmaxIdx l) 0 :=
  (argmax_fold_spec l l.length le_rfl).2.1 j hj

theorem argmaxIdx_first (l : List ℚ) (j : ℕ) (hj : j < argmaxIdx l) :
    l.getD j 0 < l.getD (argmaxIdx l) 0 :=
  (argmax_fold_spec l l.length le_rfl).2.2 j hj

/-! ### The impact extractor, row by row -/

theorem getD_zipWith (f : ℚ → ℚ → ℚ) (a b : List ℚ) (j : ℕ)
    (h1 : j < a.length) (h2 : j < b.length) :
    (List.zipWith f a b).getD j 0 = f (a.getD j 0) (b.getD j 0) := by
  have hz : j < (List.zipWith f a b).length := by
    rw [List.length_zipWith]
    omega
  rw [List.getD_eq_getElem?_getD, List.getElem?_eq_getElem hz,
      List.getD_eq_getElem?_getD, List.getElem?_eq_getElem h1,
      List.getD_eq_getElem?_getD, List.getElem?_eq_getElem h2]
  simp [List.getElem_zipWith]

theorem getD_overridden (xr yr : List ℚ) (j : ℕ)
    (h1 : j < xr.length) (h2 : j < yr.length) :
    (overridden xr yr).getD j 0 =
      if xr.getD j 0 < xr.getD (argmaxIdx yr) 0 then (1:ℚ)/10 else yr.getD j 0 := by
  rw [overridden, getD_zipWith _ _ _ _ h1 h2]

theorem getD_specOverride (xr yr : List ℚ) (j : ℕ) (h : j < nSamples) :
    (specOverride xr yr).getD j 0 =
      if xr.getD j 0 < xr.getD (argmaxIdx yr) 0 then (1:ℚ)/10 else yr.getD j 0 := by
  rw [specOverride, getD_map_range _ _ _ h]

theorem impactRow_eq_specImpactRow (xr yr : List ℚ)
    (hx : xr.length = nSamples) (hy : yr.length = nSamples) :
    impactRow xr yr = specImpactRow xr yr := by
  have hov : (overridden xr yr).length = nSamples := by
    simp [overridden, List.length_zipWith, hx, hy]
  rw [impactRow, specImpactRow, flipIdxs, hov]
  apply congrArg (List.map (fun j => xr.getD j 0))
  apply List.filter_congr
  intro j hj
  simp only [List.mem_range] at hj
  have hj1 : j < nSamples := by omega
  have hj2 : j + 1 < nSamples := by omega
  rw [getD_overridden xr yr j (by omega) (by omega),
      getD_overridden xr yr (j+1) (by omega) (by omega),
      getD_specOverride xr yr j hj1, getD_specOverride xr yr (j+1) hj2]
  simp [signbit]

/-! ### Row independence: appending and flattening -/

theorem impact_from_trajectories_append (xs1 xs2 ys1 ys2 : List (List ℚ))
    (h : xs1.length = ys1.length) :
    impact_from_trajectories (xs1 ++ xs2) (ys1 ++ ys2) =
      impact_from_trajectories xs1 ys1 ++ impact_from_trajectories xs2 ys2 := by
  rw [impact_from_trajectories, impact_from_trajectories, impact_from_trajectories,
      List.zip_append h, List.map_append, List.flatten_append]

theorem forward_process_append (M : BallisticsModel) (F : FloatOps)
    (a b : List ParamRow) :
    forward_process M F (a ++ b) = forward_process M F a ++ forward_process M F b := by
  rw [forward_process, forward_process, forward_process]
  simp only [trajectories_from_parameters, List.map_append]
  exact impact_from_trajectories_append _ _ _ _ (by simp)

theorem zip_self_eq_map {α : Type} (l : List α) :
    l.zip l = l.map (fun a => (a, a)) := by
  induction l with
  | nil => rfl
  | cons a t ih => simp [ih]

theorem forward_process_eq_rows (M : BallisticsModel) (F : FloatOps)
    (x : List ParamRow) :
    forward_process M F x = (x.map (fun p => rowImpacts M F p)).flatten := by
  rw [forward_process, impact_from_trajectories]
  simp only [trajectories_from_parameters]
  rw [List.zip_map, zip_self_eq_map, List.map_map, List.map_map]
  apply congrArg List.flatten
  apply List.map_congr_left
  intro p _
  simp only [Function.comp, Prod.map, rowImpacts]

theorem flatten_of_singletons (l : List (List ℚ)) (h : ∀ r ∈ l, r.length = 1) :
    l.flatten = l.map (fun r => r.headD 0) := by
  induction l with
  | nil => rfl
  | cons a t ih =>
      rcases List.length_eq_one.mp (h a (by simp)) with ⟨v, hv⟩
      subst hv
      simp [ih (fun r hr => h r (by simp [hr]))]

/-! ### The chunk loop -/

theorem flatten_chunks_general (g : List ParamRow → List ℚ)
    (hg : ∀ a b, g (a ++ b) = g a ++ g b) :
    ∀ (k c : ℕ) (l : List ParamRow), 0 < c → l.length ≤ c * k →
      ((List.range k).map (fun i => g ((l.drop (c*i)).take c))).flatten = g l := by
  have hnil : g [] = [] := by
    have h2 := congrArg List.length (hg [] [])
    simp only [List.append_nil, List.length_append] at h2
    exact List.eq_nil_of_length_eq_zero (by omega)
  intro k
  induction k with
  | zero =>
      intro c l hc hl
      simp only [Nat.mul_zero, Nat.le_zero] at hl
      rw [List.eq_nil_of_length_eq_zero hl]
      simp [hnil]
  | succ n ih =>
      intro c l hc hl
      rw [List.range_succ_eq_map, List.map_cons, List.map_map, List.flatten_cons]
      have hstep : ((List.range n).map
            ((fun i => g ((l.drop (c*i)).take c)) ∘ Nat.succ)) =
          (List.range n).map (fun i => g (((l.drop c).drop (c*i)).take c)) := by
        apply List.map_congr_left
        intro i _
        simp only [Function.comp]
        rw [List.drop_drop]
        have : c * (i + 1) = c + c * i := by ring
        rw [this]
      rw [hstep, ih c (l.drop c) hc (by
        rw [List.length_drop]
        have : c * (n + 1) = c * n + c := by ring
        omega)]
      simp only [Nat.mul_zero, List.drop_zero]
      rw [← hg (l.take c) (l.drop c), List.take_append_drop]

theorem forwardChunked_eq (M : BallisticsModel) (F : FloatOps)
    (x : List ParamRow) :
    forwardChunked M F x.length x = forward_process M F x := by
  rw [forwardChunked]
  split
  case isTrue h =>
    have hsl : ∀ i ∈ List.range ((x.length - 1) / 100000 + 1),
        forward_process M F
            ((x.drop (100000*i)).take (min x.length (100000*(i+1)) - 100000*i)) =
          forward_process M F ((x.drop (100000*i)).take 100000) := by
      intro i _
      apply congrArg
      rw [List.take_eq_take]
      rw [List.length_drop]
      omega
    rw [List.map_congr_left hsl]
    apply flatten_chunks_general (forward_process M F) (forward_process_append M F)
    · norm_num
    · have h3 := (Nat.div_lt_iff_lt_mul (by norm_num : (0:ℕ) < 100000)).mp
        (Nat.lt_succ_self ((x.length - 1) / 100000))
      omega
  case isFalse h => rfl

theorem sample_prior_length (qpi : ℚ) (R : Rands) (N : ℕ) :
    (sample_prior qpi R N).length = N := by
  simp [sample_prior]

/-! ### Rows with a constant zero x-trajectory -/

theorem overridden_replicate_zero (yr : List ℚ) (h : yr.length = nSamples) :
    overridden (List.replicate nSamples 0) yr = yr := by
  rw [overridden]
  simp only [getD_zero_replicate]
  exact zipWith_replicate_left _ 0 (fun y => by norm_num) nSamples yr h

theorem impactRow_const_zero_x (yr : List ℚ) (h : yr.length = nSamples) :
    impactRow (List.replicate nSamples 0) yr = (flipIdxs yr).map (fun _ => 0) := by
  rw [impactRow, overridden_replicate_zero yr h]
  apply List.map_congr_left
  intro j _
  exact getD_zero_replicate _ _

theorem flipIdxs_of_sign (yr : List ℚ) (h : yr.length = nSamples) (s : ℕ → Bool)
    (hs : ∀ j, j < nSamples → signbit (yr.getD j 0) = s j) :
    flipIdxs yr = (List.range (nSamples - 1)).filter (fun j => s j != s (j+1)) := by
  rw [flipIdxs, h]
  apply List.filter_congr
  intro j hj
  simp only [List.mem_range] at hj
  rw [hs j (by omega), hs (j+1) (by omega)]

/-! ### The first impact-extraction counterexample row -/

theorem cexYs1_length : cexYs1.length = nSamples := by
  rw [cexYs1, List.length_cons, List.length_replicate]
  have h : 0 < nSamples := by norm_num [nSamples]
  omega

theorem cexYs1_getD_zero : cexYs1.getD 0 0 = -1 := rfl

theorem cexYs1_getD_succ (k : ℕ) (h : k + 1 < nSamples) :
    cexYs1.getD (k + 1) 0 = 1 := by
  rw [cexYs1, List.getD_cons_succ, List.getD_eq_getElem?_getD, List.getElem?_replicate]
  have hk : k < nSamples - 1 := by omega
  simp [hk]

theorem cexYs1_sign (j : ℕ) (hj : j < nSamples) :
    signbit (cexYs1.getD j 0) = decide (j = 0) := by
  cases j with
  | zero =>
      rw [cexYs1_getD_zero]
      simp [signbit]
  | succ k =>
      rw [cexYs1_getD_succ k hj]
      simp [signbit]

/-! ### The exact-zero-crossing counterexample row -/

theorem argmaxIdx_eq_zero (l : List ℚ)
    (h : ∀ j, j < l.length → l.getD j 0 ≤ l.getD 0 0) : argmaxIdx l = 0 := by
  by_contra hp
  have h1 := argmaxIdx_first l 0 (Nat.pos_of_ne_zero hp)
  rcases eq_or_ne l [] with hnil | hnil
  · subst hnil
    exact hp rfl
  · have h2 := argmaxIdx_lt_length l hnil
    exact absurd (h _ h2) (not_le.mpr h1)

theorem zipWith_guard_eq_right (c q : ℚ) :
    ∀ (xr yr : List ℚ), xr.length = yr.length → (∀ x ∈ xr, ¬(x < c)) →
      List.zipWith (fun xj yj => if xj < c then q else yj) xr yr = yr := by
  intro xr
  induction xr with
  | nil =>
      intro yr hlen _
      rw [List.eq_nil_of_length_eq_zero hlen.symm]
      rfl
  | cons a t ih =>
      intro yr hlen hmem
      cases yr with
      | nil => simp at hlen
      | cons b s =>
          rw [List.zipWith_cons_cons, if_neg (hmem a (by simp))]
          rw [ih s (by simpa using hlen) (fun x hx => hmem x (by simp [hx]))]

theorem flipIdxs_nil_of_nonneg (yr : List ℚ)
    (h : ∀ j, j < yr.length → ¬(yr.getD j 0 < 0)) : flipIdxs yr = [] := by
  rw [flipIdxs, List.filter_eq_nil_iff]
  intro j hj
  simp only [List.mem_range] at hj
  have h1 : signbit (yr.getD j 0) = false := by
    simp only [signbit, decide_eq_false_iff_not]
    exact h j (by omega)
  have h2 : signbit (yr.getD (j+1) 0) = false := by
    simp only [signbit, decide_eq_false_iff_not]
    exact h (j+1) (by omega)
  show ¬(signbit (yr.getD j 0) != signbit (yr.getD (j+1) 0)) = true
  rw [h1, h2]
  decide

theorem tval_nonneg (j : ℕ) : 0 ≤ tval j := by
  rw [tval]
  positivity

theorem tval_le_six (j : ℕ) (h : j ≤ 1499) : tval j ≤ 6 := by
  rw [tval]
  have hc : (j:ℚ) ≤ 1499 := by exact_mod_cast h
  linarith

theorem trajX_cex (t : ℚ) (ht : 0 ≤ t) :
    trajX defaultModel Fcex pcex t = t / (1 + (5/4) * t) := by
  have hden : (0:ℚ) < 1 + (5/4) * t := by linarith
  have hden2 : (1:ℚ) - (-(1/4) * t / (1/5)) ≠ 0 := by
    have he : (1:ℚ) - (-(1/4) * t / (1/5)) = 1 + (5/4) * t := by ring
    rw [he]
    exact ne_of_gt hden
  simp only [trajX, Fcex, pcex, defaultModel]
  field_simp
  ring

theorem trajY_cex (t : ℚ) (ht : 0 ≤ t) :
    trajY defaultModel Fcex pcex t =
      17658/425 - (981/100) * t^2 / (1 + (5/4) * t) := by
  have hden : (0:ℚ) < 1 + (5/4) * t := by linarith
  have hden2 : (1:ℚ) - (-(1/4) * t / (1/5)) ≠ 0 := by
    have he : (1:ℚ) - (-(1/4) * t / (1/5)) = 1 + (5/4) * t := by ring
    rw [he]
    exact ne_of_gt hden
  simp only [trajY, Fcex, pcex, defaultModel]
  field_simp
  ring

theorem xcex_getD (j : ℕ) (hj : j < nSamples) :
    (tlist.map (trajX defaultModel Fcex pcex)).getD j 0 =
      tval j / (1 + (5/4) * tval j) := by
  rw [getD_tlist_map _ _ hj, trajX_cex _ (tval_nonneg j)]

theorem ycex_getD (j : ℕ) (hj : j < nSamples) :
    (tlist.map (trajY defaultModel Fcex pcex)).getD j 0 =
      17658/425 - (981/100) * (tval j)^2 / (1 + (5/4) * tval j) := by
  rw [getD_tlist_map _ _ hj, trajY_cex _ (tval_nonneg j)]

theorem ycex_nonneg (j : ℕ) (hj : j < nSamples) :
    0 ≤ (tlist.map (trajY defaultModel Fcex pcex)).getD j 0 := by
  rw [ycex_getD j hj]
  have ht0 := tval_nonneg j
  have ht6 : tval j ≤ 6 := tval_le_six j (by
    have hns : nSamples = 1500 := rfl
    omega)
  have hden : (0:ℚ) < 1 + (5/4) * tval j := by linarith
  rw [sub_nonneg, div_le_iff hden]
  nlinarith [mul_nonneg (sub_nonneg.mpr ht6) (by linarith : (0:ℚ) ≤ tval j + 12/17)]

theorem ycex_argmax : argmaxIdx (tlist.map (trajY defaultModel Fcex pcex)) = 0 := by
  apply argmaxIdx_eq_zero
  intro j hj
  rw [length_tlist_map] at hj
  rw [ycex_getD j hj, ycex_getD 0 (by norm_num [nSamples])]
  have ht0 := tval_nonneg j
  have hden : (0:ℚ) < 1 + (5/4) * tval j := by linarith
  have hx : 0 ≤ (981/100) * (tval j)^2 / (1 + (5/4) * tval j) := by positivity
  have h0 : tval 0 = 0 := by rw [tval]; norm_num
  rw [h0]
  norm_num
  linarith

theorem overridden_cex :
    overridden (tlist.map (trajX defaultModel Fcex pcex))
      (tlist.map (trajY defaultModel Fcex pcex)) =
      tlist.map (trajY defaultModel Fcex pcex) := by
  rw [overridden]
  have hc : (tlist.map (trajX defaultModel Fcex pcex)).getD
      (argmaxIdx (tlist.map (trajY defaultModel Fcex pcex))) 0 = 0 := by
    rw [ycex_argmax, xcex_getD 0 (by norm_num [nSamples])]
    rw [tval]
    norm_num
  simp only [hc]
  apply zipWith_guard_eq_right 0 (1/10)
  · rw [length_tlist_map, length_tlist_map]
  · intro x hx
    rcases List.mem_map.mp hx with ⟨t, ht, rfl⟩
    rcases List.mem_map.mp ht with ⟨j, _, rfl⟩
    rw [trajX_cex _ (tval_nonneg j)]
    have ht0 := tval_nonneg j
    have hden : (0:ℚ) < 1 + (5/4) * tval j := by linarith
    exact not_lt.mpr (div_nonneg ht0 (le_of_lt hden))

theorem rowImpacts_cexRow : rowImpacts defaultModel Fcex pcex = [] := by
  have hnil : flipIdxs (tlist.map (trajY defaultModel Fcex pcex)) = [] := by
    apply flipIdxs_nil_of_nonneg
    intro j hj
    rw [length_tlist_map] at hj
    exact not_lt.mpr (ycex_nonneg j hj)
  rw [rowImpacts, impactRow, overridden_cex, hnil]
  rfl

theorem ycex_pos_1498 : 0 < (tlist.map (trajY defaultModel Fcex pcex)).getD 1498 0 := by
  rw [ycex_getD 1498 (by norm_num [nSamples])]
  rw [tval]
  norm_num

theorem ycex_zero_1499 : (tlist.map (trajY defaultModel Fcex pcex)).getD 1499 0 = 0 := by
  rw [ycex_getD 1499 (by norm_num [nSamples])]
  rw [tval]
  norm_num

/-! ### A witness row with exactly one sign change -/

/-- Witness parameter row: dropped from height 1 with zero speed; under
`Fwit` its y-trajectory is the line `1 - (981/125)*t`, crossing ground once. -/
def pwit : ParamRow := ⟨0, 1, 0, 0⟩

theorem trajX_wit (t : ℚ) : trajX defaultModel Fwit pwit t = 0 := by
  simp only [trajX, defaultModel, Fwit, pwit]
  ring

theorem trajY_wit (t : ℚ) :
    trajY defaultModel Fwit pwit t = 1 - (981/125) * t := by
  simp only [trajY, defaultModel, Fwit, pwit]
  ring

theorem xrow_wit :
    tlist.map (trajX defaultModel Fwit pwit) = List.replicate nSamples 0 := by
  have h1 : tlist.map (trajX defaultModel Fwit pwit) = tlist.map (fun _ => (0:ℚ)) :=
    List.map_congr_left (fun t _ => trajX_wit t)
  rw [h1, show (fun _ => (0:ℚ)) = Function.const ℚ (0:ℚ) from rfl,
      List.map_const, length_tlist]

theorem ywit_sign (j : ℕ) (hj : j < nSamples) :
    signbit ((tlist.map (trajY defaultModel Fwit pwit)).getD j 0) =
      decide (32 ≤ j) := by
  rw [getD_tlist_map _ _ hj, trajY_wit, signbit]
  rcases le_or_lt 32 j with h2 | h2
  · have hc : (32:ℚ) ≤ (j:ℚ) := by exact_mod_cast h2
    have hneg : 1 - (981/125) * tval j < 0 := by
      rw [tval]; linarith
    simp [hneg, h2]
  · have hc : (j:ℚ) ≤ 31 := by exact_mod_cast (by omega : j ≤ 31)
    have hpos : 0 < 1 - (981/125) * tval j := by
      rw [tval]; linarith
    have hnl : ¬(1 - (981/125) * tval j < 0) := by linarith
    simp [hnl, show ¬(32 ≤ j) by omega]

theorem flipIdxs_ywit :
    flipIdxs (tlist.map (trajY defaultModel Fwit pwit)) = [31] := by
  rw [flipIdxs_of_sign _ (length_tlist_map _) (fun j => decide (32 ≤ j)) ywit_sign]
  have hns : nSamples = 1500 := rfl
  have hpt : ∀ j ∈ List.range (nSamples - 1),
      ((fun j => decide (32 ≤ j)) j != (fun j => decide (32 ≤ j)) (j+1)) =
        (fun j => decide (j = 31)) j := by
    intro j hj
    simp only [List.mem_range] at hj
    by_cases h1 : j = 31
    · subst h1; decide
    · rcases le_or_lt j 30 with hle | hgt
      · simp [h1, show ¬(32 ≤ j) by omega, show ¬(32 ≤ j + 1) by omega]
      · simp [h1, show 32 ≤ j by omega, show 32 ≤ j + 1 by omega]
  rw [List.filter_congr hpt]
  exact range_filter_deq 31 _ (by omega)

theorem rowImpacts_wit : rowImpacts defaultModel Fwit pwit = [0] := by
  rw [rowImpacts, xrow_wit, impactRow_const_zero_x _ (length_tlist_map _),
      flipIdxs_ywit]
  rfl

theorem except_bind_ok {ε α β : Type} (a : α) (f : α → Except ε β) :
    (Except.ok a : Except ε α).bind f = f a := rfl

theorem except_bind_error {ε α β : Type} (e : ε) (f : α → Except ε β) :
    (Except.error e : Except ε α).bind f = .error e := rfl

theorem datasetX_some (qpi : ℚ) (R : Rands) (env : IOEnv) (hasRoot : Bool)
    (n : ℕ) (a : List ParamRow) (h : effLoad hasRoot env.loadX = some a) :
    datasetX qpi R env hasRoot n = .ok (a.take n, []) := by
  rw [datasetX, h]

theorem datasetX_none_ok (qpi : ℚ) (R : Rands) (env : IOEnv) (hasRoot : Bool)
    (n : ℕ) (h : effLoad hasRoot env.loadX = none)
    (hs : (hasRoot && !env.saveXOk) = false) :
    datasetX qpi R env hasRoot n = .ok (sample_prior qpi R n, [xMissMsg]) := by
  simp [datasetX, h, hs]

theorem datasetX_none_err (qpi : ℚ) (R : Rands) (env : IOEnv) (hasRoot : Bool)
    (n : ℕ) (h : effLoad hasRoot env.loadX = none)
    (hs : (hasRoot && !env.saveXOk) = true) :
    datasetX qpi R env hasRoot n = .error "x artifact save failed" := by
  simp [datasetX, h, hs]

theorem datasetY_some (M : BallisticsModel) (F : FloatOps) (env : IOEnv)
    (hasRoot : Bool) (n : ℕ) (x : List ParamRow) (b : List ℚ)
    (h : effLoad hasRoot env.loadY = some b) :
    datasetY M F env hasRoot n x = .ok (b.take n, []) := by
  rw [datasetY, h]

theorem datasetY_none_ok (M : BallisticsModel) (F : FloatOps) (env : IOEnv)
    (hasRoot : Bool) (n : ℕ) (x : List ParamRow)
    (h : effLoad hasRoot env.loadY = none)
    (hs : (hasRoot && !env.saveYOk) = false) :
    datasetY M F env hasRoot n x = .ok (forwardChunked M F n x, [yMissMsg]) := by
  simp [datasetY, h, hs]

theorem datasetY_none_err (M : BallisticsModel) (F : FloatOps) (env : IOEnv)
    (hasRoot : Bool) (n : ℕ) (x : List ParamRow)
    (h : effLoad hasRoot env.loadY = none)
    (hs : (hasRoot && !env.saveYOk) = true) :
    datasetY M F env hasRoot n x = .error "y artifact save failed" := by
  simp [datasetY, h, hs]

theorem datasetInit_eq_ok (M : BallisticsModel) (F : FloatOps) (qpi : ℚ)
    (R : Rands) (env : IOEnv) (hasRoot : Bool) (n : ℕ)
    (xr : List ParamRow × List String) (yr : List ℚ × List String)
    (hx : datasetX qpi R env hasRoot n = .ok xr)
    (hy : datasetY M F env hasRoot n xr.1 = .ok yr) :
    datasetInit M F qpi R env hasRoot n =
      .ok ⟨n, xr.1, yr.1, (if hasRoot then [] else [noRootMsg]) ++ xr.2 ++ yr.2⟩ := by
  simp only [datasetInit, hx, except_bind_ok, hy]

theorem datasetInit_eq_errX (M : BallisticsModel) (F : FloatOps) (qpi : ℚ)
    (R : Rands) (env : IOEnv) (hasRoot : Bool) (n : ℕ) (e : String)
    (hx : datasetX qpi R env hasRoot n = .error e) :
    datasetInit M F qpi R env hasRoot n = .error e := by
  simp only [datasetInit, hx, except_bind_error]

theorem datasetInit_eq_errY (M : BallisticsModel) (F : FloatOps) (qpi : ℚ)
    (R : Rands) (env : IOEnv) (hasRoot : Bool) (n : ℕ)
    (xr : List ParamRow × List String) (e : String)
    (hx : datasetX qpi R env hasRoot n = .ok xr)
    (hy : datasetY M F env hasRoot n xr.1 = .error e) :
    datasetInit M F qpi R env hasRoot n = .error e := by
  simp only [datasetInit, hx, except_bind_ok, hy, except_bind_error]

theorem datasetInit_ok_n (M : BallisticsModel) (F : FloatOps) (qpi : ℚ)
    (R : Rands) (env : IOEnv) (hasRoot : Bool) (n : ℕ) (d : DatasetState)
    (h : datasetInit M F qpi R env hasRoot n = .ok d) : d.n = n := by
  rcases hx : datasetX qpi R env hasRoot n with e | xr
  · rw [datasetInit_eq_errX M F qpi R env hasRoot n e hx] at h
    simp at h
  · rcases hy : datasetY M F env hasRoot n xr.1 with e | yr
    · rw [datasetInit_eq_errY M F qpi R env hasRoot n xr e hx hy] at h
      simp at h
    · rw [datasetInit_eq_ok M F qpi R env hasRoot n xr yr hx hy] at h
      simp only [Except.ok.injEq] at h
      subst h
      rfl

theorem getD_map_row (f : ParamRow → List ℚ) :
    ∀ (x : List ParamRow) (i : ℕ), i < x.length →
      (x.map f).getD i [] = f (x.getD i pdef) := by
  intro x
  induction x with
  | nil => intro i hi; simp at hi
  | cons a t ih =>
      intro i hi
      cases i with
      | zero => rfl
      | succ k =>
          rw [List.map_cons, List.getD_cons_succ, List.getD_cons_succ]
          exact ih k (by simpa using hi)

/-! ## The claims -/

/-- C1, corrected.  For every trajectory batch of rows of 1500 samples: the
peak index is the argmax of y (first index attaining the maximum — the three
properties below); y-samples whose x-position is strictly less than the
x-position at the peak are replaced by the sentinel 0.1; the output is the
concatenation, in row order, of the x-values at every position where the
strict-negativity sign bit of the overridden y differs between consecutive
samples — a flip in either direction and all flips, not only a first
positive-to-non-positive one; a row with no sign-bit flip contributes no
impact value, so the output may have fewer (or more) entries than the input
has rows. -/
theorem claim1_impact_extraction (xs ys : List (List ℚ))
    (hlen : xs.length = ys.length)
    (hx : ∀ r ∈ xs, r.length = nSamples) (hy : ∀ r ∈ ys, r.length = nSamples) :
    impact_from_trajectories xs ys =
      ((List.zip xs ys).map (fun p => specImpactRow p.1 p.2)).flatten ∧
    ∀ p ∈ List.zip xs ys,
      argmaxIdx p.2 < nSamples ∧
      (∀ j, j < nSamples → p.2.getD j 0 ≤ p.2.getD (argmaxIdx p.2) 0) ∧
      (∀ j, j < argmaxIdx p.2 → p.2.getD j 0 < p.2.getD (argmaxIdx p.2) 0) := by
  constructor
  · rw [impact_from_trajectories]
    apply congrArg List.flatten
    apply List.map_congr_left
    intro p hp
    rcases p with ⟨p1, p2⟩
    have hm := List.of_mem_zip hp
    exact impactRow_eq_specImpactRow p1 p2 (hx p1 hm.1) (hy p2 hm.2)
  · intro p hp
    rcases p with ⟨p1, p2⟩
    have hm := List.of_mem_zip hp
    have hylen : p2.length = nSamples := hy p2 hm.2
    have hne : p2 ≠ [] := by
      intro hcon
      rw [hcon] at hylen
      norm_num [nSamples] at hylen
    refine ⟨?_, ?_, ?_⟩
    · have h1 := argmaxIdx_lt_length p2 hne
      rw [hylen] at h1
      exact h1
    · intro j hj
      exact argmaxIdx_is_max p2 j (by rw [hylen]; exact hj)
    · intro j hj
      exact argmaxIdx_first p2 j hj

/-- Witness for C1 at a concrete 1-row batch of 1500 samples. -/
theorem claim1_impact_extraction_witness :
    impact_from_trajectories [cexXs1] [cexYs1] =
      ((List.zip [cexXs1] [cexYs1]).map (fun p => specImpactRow p.1 p.2)).flatten :=
  (claim1_impact_extraction [cexXs1] [cexYs1] rfl
    (by
      intro r hr
      simp only [List.mem_singleton] at hr
      subst hr
      simp [cexXs1])
    (by
      intro r hr
      simp only [List.mem_singleton] at hr
      subst hr
      exact cexYs1_length)).1

/-- Counterexample to C1 as stated: a 1-row batch (constant zero x-row, y-row
`-1` then 1499 ones) whose overridden y has no positive-to-non-positive
crossing anywhere, yet the code emits one impact value for it (the claim as
stated says such a row contributes no impact value, so the output would have
to be empty). -/
theorem claim1_impact_extraction_cex :
    impact_from_trajectories [cexXs1] [cexYs1] = [0] ∧
    (∀ j, j + 1 < nSamples →
      ¬(0 < (overridden cexXs1 cexYs1).getD j 0 ∧
          (overridden cexXs1 cexYs1).getD (j+1) 0 ≤ 0)) := by
  constructor
  · have hz : List.zip [cexXs1] [cexYs1] = [(cexXs1, cexYs1)] := rfl
    rw [impact_from_trajectories, hz]
    simp only [List.map_cons, List.map_nil]
    rw [List.flatten_cons, List.flatten_nil, List.append_nil]
    rw [show cexXs1 = List.replicate nSamples 0 from rfl,
        impactRow_const_zero_x _ cexYs1_length,
        flipIdxs_of_sign _ cexYs1_length (fun j => decide (j = 0)) cexYs1_sign]
    have hpt : ∀ j ∈ List.range (nSamples - 1),
        ((fun j => decide (j = 0)) j != (fun j => decide (j = 0)) (j+1)) =
          (fun j => decide (j = 0)) j := by
      intro j hj
      by_cases h0 : j = 0
      · subst h0; decide
      · simp [h0]
    rw [List.filter_congr hpt, range_filter_deq 0 _ (by norm_num [nSamples])]
    rfl
  · intro j hj
    rw [show cexXs1 = List.replicate nSamples 0 from rfl,
        overridden_replicate_zero _ cexYs1_length]
    cases j with
    | zero =>
        rw [cexYs1_getD_zero]
        intro hcon
        exact absurd hcon.1 (by norm_num)
    | succ k =>
        rw [cexYs1_getD_succ (k+1) hj]
        intro hcon
        exact absurd hcon.2 (by norm_num)

/-- C2, confirmed.  For every parameter batch and abstract float
transcendentals, the simulator returns two arrays with one row per parameter
row and 1500 samples per row, and entry `(i, j)` equals the closed forms
`x(t) = x0 - (vx*m/k)*expterm` and
`y(t) = y0 - (m/k^2)*((g*m + vy*k)*expterm + g*t*k)` at `t = 6*j/1499`,
with `vx = v0*cos(angle)`, `vy = v0*sin(angle)`,
`expterm = exp(-k*t/m) - 1` — a direct closed-form evaluation. -/
theorem claim2_trajectories_formula (M : BallisticsModel) (F : FloatOps)
    (x : List ParamRow) (i j : ℕ) (hi : i < x.length) (hj : j < nSamples)
    (hk : 0 < M.k) (hm : 0 < M.m) :
    (trajectories_from_parameters M F x).1.length = x.length ∧
    (trajectories_from_parameters M F x).2.length = x.length ∧
    (∀ r ∈ (trajectories_from_parameters M F x).1, r.length = nSamples) ∧
    (∀ r ∈ (trajectories_from_parameters M F x).2, r.length = nSamples) ∧
    ((trajectories_from_parameters M F x).1.getD i []).getD j 0 =
      (x.getD i pdef).x0 -
        ((x.getD i pdef).v0 * F.fcos (x.getD i pdef).angle * M.m / M.k) *
          (F.fexp (-M.k * (6 * (j:ℚ) / 1499) / M.m) - 1) ∧
    ((trajectories_from_parameters M F x).2.getD i []).getD j 0 =
      (x.getD i pdef).y0 - (M.m / (M.k * M.k)) *
        ((M.g * M.m + (x.getD i pdef).v0 * F.fsin (x.getD i pdef).angle * M.k) *
            (F.fexp (-M.k * (6 * (j:ℚ) / 1499) / M.m) - 1)
          + M.g * (6 * (j:ℚ) / 1499) * M.k) := by
  have hrow1 : (trajectories_from_parameters M F x).1.getD i [] =
      tlist.map (trajX M F (x.getD i pdef)) := by
    simp only [trajectories_from_parameters]
    exact getD_map_row _ x i hi
  have hrow2 : (trajectories_from_parameters M F x).2.getD i [] =
      tlist.map (trajY M F (x.getD i pdef)) := by
    simp only [trajectories_from_parameters]
    exact getD_map_row _ x i hi
  refine ⟨by simp [trajectories_from_parameters], by simp [trajectories_from_parameters],
    ?_, ?_, ?_, ?_⟩
  · intro r hr
    simp only [trajectories_from_parameters, List.mem_map] at hr
    rcases hr with ⟨p, _, hpr⟩
    rw [← hpr]
    exact length_tlist_map _
  · intro r hr
    simp only [trajectories_from_parameters, List.mem_map] at hr
    rcases hr with ⟨p, _, hpr⟩
    rw [← hpr]
    exact length_tlist_map _
  · rw [hrow1, getD_tlist_map _ _ hj]
    rfl
  · rw [hrow2, getD_tlist_map _ _ hj]
    rfl

/-- Witness for C2 at one concrete row, entry `(0, 0)`. -/
theorem claim2_trajectories_formula_witness :
    ((trajectories_from_parameters defaultModel Fwit [pwit]).1.getD 0 []).getD 0 0 =
      (([pwit].getD 0 pdef).x0 -
        (([pwit].getD 0 pdef).v0 * Fwit.fcos (([pwit].getD 0 pdef).angle) *
            defaultModel.m / defaultModel.k) *
          (Fwit.fexp (-defaultModel.k * (6 * ((0:ℕ):ℚ) / 1499) / defaultModel.m) - 1)) :=
  (claim2_trajectories_formula defaultModel Fwit [pwit] 0 0 (by norm_num)
    (by norm_num [nSamples]) (by norm_num [defaultModel])
    (by norm_num [defaultModel])).2.2.2.2.1

/-- C3, corrected.  For every dataset construction that succeeds: if the
stored parameter artifact is absent (or its load raises), the cache
regenerates by drawing exactly N fresh prior samples; but if an artifact is
present it is sliced to its first `min(N, M)` rows without any length check —
a present artifact with fewer than N rows is NOT regenerated, so the
materialized parameter batch has exactly N rows only when the artifact is
absent or has at least N rows. -/
theorem claim3_x_loading (M : BallisticsModel) (F : FloatOps) (qpi : ℚ)
    (R : Rands) (env : IOEnv) (hasRoot : Bool) (n : ℕ) (d : DatasetState)
    (h : datasetInit M F qpi R env hasRoot n = .ok d) :
    d.n = n ∧
    (effLoad hasRoot env.loadX = none →
      d.x = sample_prior qpi R n ∧ d.x.length = n) ∧
    (∀ a, effLoad hasRoot env.loadX = some a →
      d.x = a.take n ∧ d.x.length = min n a.length) := by
  rcases henv : effLoad hasRoot env.loadX with _ | a
  · by_cases hs : (hasRoot && !env.saveXOk) = true
    · rw [datasetInit_eq_errX M F qpi R env hasRoot n _
          (datasetX_none_err qpi R env hasRoot n henv hs)] at h
      simp at h
    · have hs2 : (hasRoot && !env.saveXOk) = false := by
        revert hs
        cases hasRoot && !env.saveXOk <;> simp
      rcases hyy : datasetY M F env hasRoot n (sample_prior qpi R n) with e | yr
      · rw [datasetInit_eq_errY M F qpi R env hasRoot n _ _
            (datasetX_none_ok qpi R env hasRoot n henv hs2) hyy] at h
        simp at h
      · rw [datasetInit_eq_ok M F qpi R env hasRoot n _ _
            (datasetX_none_ok qpi R env hasRoot n henv hs2) hyy] at h
        simp only [Except.ok.injEq] at h
        subst h
        refine ⟨rfl, fun _ => ⟨rfl, sample_prior_length qpi R n⟩, ?_⟩
        intro a ha
        simp at ha
  · rcases hyy : datasetY M F env hasRoot n (a.take n) with e | yr
    · rw [datasetInit_eq_errY M F qpi R env hasRoot n _ _
          (datasetX_some qpi R env hasRoot n a henv) hyy] at h
      simp at h
    · rw [datasetInit_eq_ok M F qpi R env hasRoot n _ _
          (datasetX_some qpi R env hasRoot n a henv) hyy] at h
      simp only [Except.ok.injEq] at h
      subst h
      refine ⟨rfl, fun hcon => by simp at hcon, ?_⟩
      intro b hb
      simp only [Option.some.injEq] at hb
      subst hb
      exact ⟨rfl, by simp [List.length_take]⟩

/-- Witness for C3: a successful construction with both artifacts present. -/
theorem claim3_x_loading_witness :
    (datasetInit defaultModel Fwit 3 Rwit ⟨some [pdef], some [], true, true⟩
        true 1 = Except.ok ⟨1, [pdef], [], []⟩) ∧
    (⟨1, [pdef], [], []⟩ : DatasetState).n = 1 := by
  have h : datasetInit defaultModel Fwit 3 Rwit ⟨some [pdef], some [], true, true⟩
      true 1 = Except.ok ⟨1, [pdef], [], []⟩ := rfl
  exact ⟨h, (claim3_x_loading defaultModel Fwit 3 Rwit _ true 1 _ h).1⟩

/-- Counterexample to C3 as stated: a stored parameter artifact with a single
row and a request for N = 2 — the load succeeds, nothing is regenerated, and
the materialized batch has 1 row, not the 2 rows the claim asserts. -/
theorem claim3_x_loading_cex :
    (datasetInit defaultModel Fwit 3 Rwit ⟨some [pdef], some [], true, true⟩
        true 2).toOption.map (fun d => d.x.length) = some 1 ∧
    (1 : ℕ) ≠ 2 := by
  constructor
  · rfl
  · norm_num

/-- C4, corrected.  For every successfully constructed dataset instance,
`len()` returns the `n` fixed at construction, and item access at any index
below BOTH batches' row counts returns the pair (parameter row i, observation
row i) — a pure lookup into the stored arrays, nothing is regenerated.  The
two batches need NOT have equal row counts: a short cached artifact, or rows
dropped by the impact extractor, can leave the observation batch shorter than
the parameter batch (and shorter than `len()`), in which case access below
`len()` can fail. -/
theorem claim4_len_getitem (M : BallisticsModel) (F : FloatOps) (qpi : ℚ)
    (R : Rands) (env : IOEnv) (hasRoot : Bool) (n : ℕ) (d : DatasetState)
    (h : datasetInit M F qpi R env hasRoot n = .ok d) :
    datasetLen d = n ∧
    ∀ i, i < d.x.length → i < d.y.length →
      datasetGetitem d i = some (d.x.getD i pdef, d.y.getD i 0) := by
  constructor
  · exact datasetInit_ok_n M F qpi R env hasRoot n d h
  · intro i h1 h2
    have hgx : d.x.getD i pdef = d.x.get ⟨i, h1⟩ := by
      rw [List.getD_eq_getElem?_getD, List.getElem?_eq_getElem h1]
      rfl
    have hgy : d.y.getD i 0 = d.y.get ⟨i, h2⟩ := by
      rw [List.getD_eq_getElem?_getD, List.getElem?_eq_getElem h2]
      rfl
    rw [datasetGetitem, List.get?_eq_get h1, List.get?_eq_get h2, hgx, hgy]

/-- Witness for C4: a successful construction with matching 1-row artifacts. -/
theorem claim4_len_getitem_witness :
    datasetLen (⟨1, [pdef], [0], []⟩ : DatasetState) = 1 ∧
    datasetGetitem (⟨1, [pdef], [0], []⟩ : DatasetState) 0 = some (pdef, 0) := by
  have h : datasetInit defaultModel Fwit 3 Rwit ⟨some [pdef], some [0], true, true⟩
      true 1 = Except.ok ⟨1, [pdef], [0], []⟩ := rfl
  refine ⟨(claim4_len_getitem defaultModel Fwit 3 Rwit _ true 1 _ h).1, ?_⟩
  have h2 := (claim4_len_getitem defaultModel Fwit 3 Rwit _ true 1 _ h).2 0
    (by norm_num) (by norm_num)
  exact h2

/-- Counterexample to C4 as stated: with a 1-row parameter artifact and an
empty observation artifact the construction succeeds, `len()` is 1, the two
stored batches have row counts 1 and 0 — not equal — and item access at
index 0 (below `len()`) fails instead of returning a pair. -/
theorem claim4_len_getitem_cex :
    (datasetInit defaultModel Fwit 3 Rwit ⟨some [pdef], some [], true, true⟩
        true 1).toOption.map
      (fun d => (datasetLen d, d.x.length, d.y.length, datasetGetitem d 0)) =
      some (1, 1, 0, none) ∧
    (0 : ℕ) < 1 := by
  exact ⟨rfl, by norm_num⟩

/-- C5, confirmed.  For every parameter batch with more than 100,000 rows,
the chunk loop of the dataset constructor — consecutive slices
`x[100000*i : min(n, 100000*(i+1))]`, forward process per chunk, results
concatenated in order — produces exactly the same observation array as one
forward-process call on the whole batch. -/
theorem claim5_chunking_equiv (M : BallisticsModel) (F : FloatOps)
    (x : List ParamRow) (h : 100000 < x.length) :
    forwardChunked M F x.length x = forward_process M F x :=
  forwardChunked_eq M F x

/-- Witness for C5 at a concrete batch of 100,001 rows. -/
theorem claim5_chunking_equiv_witness :
    100000 < (List.replicate 100001 pdef).length ∧
    forwardChunked defaultModel Fwit (List.replicate 100001 pdef).length
        (List.replicate 100001 pdef) =
      forward_process defaultModel Fwit (List.replicate 100001 pdef) :=
  ⟨by rw [List.length_replicate]; norm_num,
   claim5_chunking_equiv defaultModel Fwit _
     (by rw [List.length_replicate]; norm_num)⟩

/-- C6, corrected.  If every row's overridden y-trajectory has exactly one
sign-bit change (equivalently, contributes exactly one impact value), the
forward process returns one observation per input row, row `i` being the
impact of input row `i`.  A row merely having a positive-to-non-positive
crossing is not enough: a crossing whose non-positive side is exactly zero
produces no sign-bit change, and when that happens at the last sample the
row is silently dropped and the output is shorter than the input. -/
theorem claim6_row_alignment (M : BallisticsModel) (F : FloatOps)
    (x : List ParamRow) (h : ∀ p ∈ x, (rowImpacts M F p).length = 1) :
    (forward_process M F x).length = x.length ∧
    forward_process M F x = x.map (fun p => (rowImpacts M F p).headD 0) := by
  have heq := forward_process_eq_rows M F x
  have hflat := flatten_of_singletons (x.map (fun p => rowImpacts M F p)) (by
    intro r hr
    rcases List.mem_map.mp hr with ⟨p, hp, hpr⟩
    rw [← hpr]
    exact h p hp)
  constructor
  · rw [heq, hflat, List.map_map, List.length_map]
  · rw [heq, hflat, List.map_map]
    apply List.map_congr_left
    intro p _
    simp only [Function.comp]

/-- Witness for C6 at a concrete one-row batch whose trajectory crosses the
ground exactly once. -/
theorem claim6_row_alignment_witness :
    (∀ p ∈ [pwit], (rowImpacts defaultModel Fwit p).length = 1) ∧
    (forward_process defaultModel Fwit [pwit]).length = [pwit].length := by
  have hh : ∀ p ∈ [pwit], (rowImpacts defaultModel Fwit p).length = 1 := by
    intro p hp
    simp only [List.mem_singleton] at hp
    subst hp
    rw [rowImpacts_wit]
    rfl
  exact ⟨hh, (claim6_row_alignment defaultModel Fwit [pwit] hh).1⟩

/-- Counterexample to C6 as stated: a one-row batch whose strictly
descending y-trajectory stays above ground until it reaches exactly 0 at
the last sample.  The row HAS a positive-to-non-positive crossing within
the 1500 samples (sample 1498 is positive, sample 1499 is 0), but the
strict sign bit never changes — positive to exactly zero is not a flip,
the divergence already established for C1 — so the extractor drops the
row and the forward process returns 0 observations for the 1 input row.
The float program reaches the same state: at `angle = 0.0` the float
cosine and sine are exactly 1 and 0, each y-sample is the single
subtraction `y0 - T_j` with `T_j` independent of `y0`, and the float
input `y0 = T_1499` makes the last sample exactly `+0.0` (sign bit
clear, row dropped) while sample 1498 stays near `+0.03`. -/
theorem claim6_row_alignment_cex :
    (forward_process defaultModel Fcex [pcex]).length = 0 ∧
    ([pcex].length = 1) ∧
    (∃ j, j + 1 < nSamples ∧
      0 < (overridden (tlist.map (trajX defaultModel Fcex pcex))
            (tlist.map (trajY defaultModel Fcex pcex))).getD j 0 ∧
      (overridden (tlist.map (trajX defaultModel Fcex pcex))
            (tlist.map (trajY defaultModel Fcex pcex))).getD (j+1) 0 ≤ 0) := by
  refine ⟨?_, rfl, ?_⟩
  · rw [forward_process_eq_rows]
    simp only [List.map_cons, List.map_nil, List.flatten_cons, List.flatten_nil,
      List.append_nil]
    rw [rowImpacts_cexRow]
    rfl
  · refine ⟨1498, by norm_num [nSamples], ?_, ?_⟩
    · rw [overridden_cex]
      exact ycex_pos_1498
    · rw [overridden_cex]
      have h9 : (1498:ℕ) + 1 = 1499 := by norm_num
      rw [h9, ycex_zero_1499]

/-- C7, confirmed.  `find_MAP` is a total function of its inputs in this
embedding (it cannot raise), and whenever the clustering call raises, or the
density-fitting call raises, the bare `except:` clause catches the failure:
`find_MAP` prints the diagnostic and returns index 0 deterministically. -/
theorem claim7_find_MAP_fallback (env : MAPEnv) (x : List ParamRow)
    (h : env.meanShiftFit x = .error () ∨
      (∃ cs, env.meanShiftFit x = .ok cs ∧ env.kdeScores x cs = .error ()) ∨
      (∃ cs ds, env.meanShiftFit x = .ok cs ∧ env.kdeScores x cs = .ok ds ∧
        (bestCenterLoop cs ds).1 = none)) :
    find_MAP env x = (0, ["Mean shift failed"]) := by
  have hb : mapTryBody env x = .error () := by
    rcases h with h1 | ⟨cs, h1, h2⟩ | ⟨cs, ds, h1, h2, h3⟩
    · simp only [mapTryBody, h1, except_bind_error]
    · simp only [mapTryBody, h1, except_bind_ok, h2, except_bind_error]
    · simp only [mapTryBody, h1, except_bind_ok, h2, h3]
  rw [find_MAP, hb]

/-- Witness for C7 with a clustering call that raises on the given batch. -/
theorem claim7_find_MAP_fallback_witness :
    find_MAP ⟨fun _ => .error (), fun _ _ => .error ()⟩ [pdef] =
      (0, ["Mean shift failed"]) :=
  claim7_find_MAP_fallback ⟨fun _ => .error (), fun _ _ => .error ()⟩ [pdef]
    (Or.inl rfl)

/-- C8, confirmed.  Every row of a prior sample has `y0 ≥ 0` (the normal draw
is clamped at 0 by the maximum), `angle ∈ [0.05*pi, 0.45*pi]` (computed as a
uniform `[0,1)` draw times `0.8*(pi/2)` plus `0.1*(pi/2)`), and `v0` the
value of a natural-number Poisson draw stored as a rational — non-negative
and integer-valued; the batch has exactly N rows. -/
theorem claim8_prior_bounds (qpi : ℚ) (R : Rands) (N : ℕ)
    (hpi : 0 < qpi) (hu : ∀ i, 0 ≤ R.u i ∧ R.u i < 1) :
    (sample_prior qpi R N).length = N ∧
    ∀ p ∈ sample_prior qpi R N,
      0 ≤ p.y0 ∧
      qpi * (5/100) ≤ p.angle ∧ p.angle ≤ qpi * (45/100) ∧
      0 ≤ p.v0 ∧ ∃ k : ℕ, p.v0 = (k : ℚ) := by
  refine ⟨sample_prior_length qpi R N, ?_⟩
  intro p hp
  simp only [sample_prior, List.mem_map] at hp
  rcases hp with ⟨i, _, hip⟩
  subst hip
  refine ⟨le_max_right _ _, ?_, ?_, Nat.cast_nonneg _, ⟨R.pv i, rfl⟩⟩
  · have h1 := (hu i).1
    nlinarith [mul_nonneg h1 (le_of_lt hpi)]
  · have h2 := (hu i).2
    have h1 := (hu i).1
    nlinarith [mul_pos (by linarith : (0:ℚ) < 1 - R.u i) hpi]

/-- Witness for C8 with a concrete positive `pi` and all-zero draws. -/
theorem claim8_prior_bounds_witness :
    (sample_prior 3 Rwit 2).length = 2 ∧
    ∀ p ∈ sample_prior 3 Rwit 2,
      0 ≤ p.y0 ∧
      3 * (5/100) ≤ p.angle ∧ p.angle ≤ 3 * (45/100) ∧
      0 ≤ p.v0 ∧ ∃ k : ℕ, p.v0 = (k : ℚ) :=
  claim8_prior_bounds 3 Rwit 2 (by norm_num)
    (by intro i; constructor <;> norm_num [Rwit])

/-- C9, confirmed.  During dataset construction, a failed artifact load
(cache miss) is always recovered by regeneration — whenever the storage
operations succeed (or no storage location was given) the constructor
returns normally, with an informational notice in the log for each missed
artifact — whereas a failure of `os.makedirs`/`np.save` for the parameter
artifact, or of `np.save` for the observation artifact, is uncaught and
propagates to the caller. -/
theorem claim9_error_semantics (M : BallisticsModel) (F : FloatOps) (qpi : ℚ)
    (R : Rands) (env : IOEnv) (hasRoot : Bool) (n : ℕ) :
    ((hasRoot = true → env.saveXOk = true ∧ env.saveYOk = true) →
      ∃ d, datasetInit M F qpi R env hasRoot n = .ok d ∧
        (effLoad hasRoot env.loadX = none → xMissMsg ∈ d.logs) ∧
        (effLoad hasRoot env.loadY = none → yMissMsg ∈ d.logs)) ∧
    (hasRoot = true → env.loadX = none → env.saveXOk = false →
      datasetInit M F qpi R env hasRoot n = .error "x artifact save failed") ∧
    (hasRoot = true → env.loadY = none → env.saveYOk = false →
      (env.loadX = none → env.saveXOk = true) →
      datasetInit M F qpi R env hasRoot n = .error "y artifact save failed") := by
  refine ⟨?_, ?_, ?_⟩
  · intro hsaves
    have hsx : (hasRoot && !env.saveXOk) = false := by
      cases hasRoot with
      | false => simp
      | true => simp [(hsaves rfl).1]
    have hsy : (hasRoot && !env.saveYOk) = false := by
      cases hasRoot with
      | false => simp
      | true => simp [(hsaves rfl).2]
    have hx : ∃ xr, datasetX qpi R env hasRoot n = .ok xr ∧
        (effLoad hasRoot env.loadX = none → xMissMsg ∈ xr.2) := by
      rcases hlx : effLoad hasRoot env.loadX with _ | a
      · exact ⟨_, datasetX_none_ok qpi R env hasRoot n hlx hsx, fun _ => by simp⟩
      · exact ⟨_, datasetX_some qpi R env hasRoot n a hlx,
          fun hcon => absurd hcon (by simp)⟩
    obtain ⟨xr, hxeq, hxlog⟩ := hx
    have hy : ∃ yr, datasetY M F env hasRoot n xr.1 = .ok yr ∧
        (effLoad hasRoot env.loadY = none → yMissMsg ∈ yr.2) := by
      rcases hly : effLoad hasRoot env.loadY with _ | b
      · exact ⟨_, datasetY_none_ok M F env hasRoot n xr.1 hly hsy, fun _ => by simp⟩
      · exact ⟨_, datasetY_some M F env hasRoot n xr.1 b hly,
          fun hcon => absurd hcon (by simp)⟩
    obtain ⟨yr, hyeq, hylog⟩ := hy
    refine ⟨_, datasetInit_eq_ok M F qpi R env hasRoot n xr yr hxeq hyeq, ?_, ?_⟩
    · intro hnone
      simp only [List.mem_append]
      exact Or.inl (Or.inr (hxlog hnone))
    · intro hnone
      simp only [List.mem_append]
      exact Or.inr (hylog hnone)
  · intro hr hlx hsx
    subst hr
    have heff : effLoad true env.loadX = none := by simp [effLoad, hlx]
    have hs : (true && !env.saveXOk) = true := by simp [hsx]
    exact datasetInit_eq_errX M F qpi R env true n _
      (datasetX_none_err qpi R env true n heff hs)
  · intro hr hly hsy himp
    subst hr
    have heffy : effLoad true env.loadY = none := by simp [effLoad, hly]
    have hsy2 : (true && !env.saveYOk) = true := by simp [hsy]
    rcases hlx : env.loadX with _ | a
    · have hsxok : env.saveXOk = true := himp hlx
      exact datasetInit_eq_errY M F qpi R env true n _ _
        (datasetX_none_ok qpi R env true n (by simp [effLoad, hlx]) (by simp [hsxok]))
        (datasetY_none_err M F env true n _ heffy hsy2)
    · exact datasetInit_eq_errY M F qpi R env true n _ _
        (datasetX_some qpi R env true n a (by simp [effLoad, hlx]))
        (datasetY_none_err M F env true n _ heffy hsy2)

/-- Witness for C9: both artifacts missing, storage healthy — construction
succeeds and both informational notices are logged. -/
theorem claim9_error_semantics_witness :
    ∃ d, datasetInit defaultModel Fwit 3 Rwit ⟨none, none, true, true⟩ true 1 =
        .ok d ∧ xMissMsg ∈ d.logs ∧ yMissMsg ∈ d.logs := by
  obtain ⟨d, hd, h1, h2⟩ :=
    (claim9_error_semantics defaultModel Fwit 3 Rwit ⟨none, none, true, true⟩
      true 1).1 (fun _ => ⟨rfl, rfl⟩)
  exact ⟨d, hd, h1 rfl, h2 rfl⟩

/-- C10, confirmed.  The impact extractor preserves row order: for every
split point `i`, the output equals the impacts of the first `i` rows followed
by the impacts of the remaining rows, so every impact value originating from
an earlier row precedes every impact value originating from a later row. -/
theorem claim10_impact_order (xs ys : List (List ℚ))
    (h : xs.length = ys.length) (i : ℕ) :
    impact_from_trajectories xs ys =
      impact_from_trajectories (xs.take i) (ys.take i) ++
        impact_from_trajectories (xs.drop i) (ys.drop i) := by
  conv_lhs => rw [← List.take_append_drop i xs, ← List.take_append_drop i ys]
  exact impact_from_trajectories_append _ _ _ _ (by simp [h])

/-- Witness for C10 at a concrete two-row batch, split after the first row. -/
theorem claim10_impact_order_witness :
    ([[(1:ℚ)], [2]] : List (List ℚ)).length = ([[(5:ℚ)], [6]] : List (List ℚ)).length ∧
    impact_from_trajectories [[(1:ℚ)], [2]] [[(5:ℚ)], [6]] =
      impact_from_trajectories (([[(1:ℚ)], [2]] : List (List ℚ)).take 1)
          (([[(5:ℚ)], [6]] : List (List ℚ)).take 1) ++
        impact_from_trajectories (([[(1:ℚ)], [2]] : List (List ℚ)).drop 1)
          (([[(5:ℚ)], [6]] : List (List ℚ)).drop 1) :=
  ⟨rfl, claim10_impact_order _ _ rfl 1⟩
